import Mathlib

/-!
Verification of the monitoring agent core (src/agent/core.py) against its
natural-language specification.  The Python module is shallowly embedded:
pure computations become Lean functions, socket and timer effects become
explicit oracles describing the outcome of each primitive operation, and
Python exceptions become explicit error values.
-/

namespace Agent

/-- Python exception classes reachable in the embedded code paths. -/
inductive PyErr where
  | socketError
  | nameError (n : String)
  | attributeError (n : String)
  | assertionError (msg : String)
  | overflowError
  | typeError
  deriving DecidableEq, Repr

/-- JSON values, the data domain of json.dumps and json.loads as used by the
agent.  Strings are lists of Unicode code points; numbers are restricted to
naturals, which covers every numeric field the agent serializes. -/
inductive Json where
  | null
  | bool (b : Bool)
  | num (n : Nat)
  | str (s : List Nat)
  | arr (elems : List Json)
  | obj (members : List (List Nat × Json))

/-- Code points of a Lean string literal, used to write concrete JSON keys. -/
def str2cp (s : String) : List Nat := s.data.map Char.toNat

/-- Lowercase hexadecimal digit (as a code point) for a value below 16. -/
def hexDig (n : Nat) : Nat := if n < 10 then 48 + n else 87 + n

/-- Four lowercase hex digits of a value below 0x10000, as in the escape
sequences emitted by json.dumps. -/
def hex4 (n : Nat) : List Nat :=
  [hexDig (n / 4096 % 16), hexDig (n / 256 % 16), hexDig (n / 16 % 16), hexDig (n % 16)]

/-- Per-character escaping of json.dumps with ensure_ascii=True (the default
used by core.py): quote, backslash and the short control escapes become
two-character escapes, every other character outside printable ASCII becomes
a 6-character unicode escape, with a surrogate pair beyond the basic plane. -/
def escChar (c : Nat) : List Nat :=
  if c = 34 then [92, 34]
  else if c = 92 then [92, 92]
  else if c = 8 then [92, 98]
  else if c = 9 then [92, 116]
  else if c = 10 then [92, 110]
  else if c = 12 then [92, 102]
  else if c = 13 then [92, 114]
  else if 32 ≤ c ∧ c ≤ 126 then [c]
  else if c < 65536 then 92 :: 117 :: hex4 c
  else
    let m := c - 65536
    (92 :: 117 :: hex4 (55296 + m / 1024)) ++ (92 :: 117 :: hex4 (56320 + m % 1024))

/-- Rendering of a JSON string literal, quotes included. -/
def dumpsStr (s : List Nat) : List Nat := 34 :: (s.flatMap escChar ++ [34])

/-- Little-endian decimal digit code points of n, with enough fuel. -/
def dumpsNumAux : Nat → Nat → List Nat
  | 0, _ => []
  | fuel + 1, n => if n = 0 then [] else (n % 10 + 48) :: dumpsNumAux fuel (n / 10)

/-- Decimal rendering of a natural number, as json.dumps renders ints. -/
def dumpsNum (n : Nat) : List Nat :=
  if n = 0 then [48] else (dumpsNumAux n n).reverse

mutual

/-- Embedding of json.dumps with its default arguments: item separator comma
plus space, key separator colon plus space, ensure_ascii=True.  The output is
a list of code points, all below 128. -/
def dumps : Json → List Nat
  | .null => [110, 117, 108, 108]
  | .bool true => [116, 114, 117, 101]
  | .bool false => [102, 97, 108, 115, 101]
  | .num n => dumpsNum n
  | .str s => dumpsStr s
  | .arr xs => 91 :: (dumpsElems xs ++ [93])
  | .obj ms => 123 :: (dumpsMembers ms ++ [125])
termination_by structural j => j

/-- Array elements separated by comma plus space. -/
def dumpsElems : List Json → List Nat
  | [] => []
  | x :: xs => dumps x ++ (if xs.isEmpty then [] else 44 :: 32 :: dumpsElems xs)
termination_by structural xs => xs

/-- Object members, each a quoted key, colon, space and value, separated by
comma plus space. -/
def dumpsMembers : List (List Nat × Json) → List Nat
  | [] => []
  | (k, v) :: ms =>
    dumpsStr k ++ 58 :: 32 ::
      (dumps v ++ (if ms.isEmpty then [] else 44 :: 32 :: dumpsMembers ms))
termination_by structural ms => ms

end

/-- Value of a hexadecimal digit code point, none for a non-hex character. -/
def hexVal (c : Nat) : Option Nat :=
  if 48 ≤ c ∧ c ≤ 57 then some (c - 48)
  else if 97 ≤ c ∧ c ≤ 102 then some (c - 87)
  else if 65 ≤ c ∧ c ≤ 70 then some (c - 55)
  else none

/-- Value of four hexadecimal digit code points, most significant first. -/
def hexQuad (h1 h2 h3 h4 : Nat) : Option Nat :=
  match hexVal h1, hexVal h2, hexVal h3, hexVal h4 with
  | some a, some b, some c, some d => some (4096 * a + 256 * b + 16 * c + d)
  | _, _, _, _ => none

/-- Short backslash escapes accepted by json.loads, mapping the escape
character to the decoded code point. -/
def escShort (e : Nat) : Option Nat :=
  if e = 34 then some 34
  else if e = 92 then some 92
  else if e = 47 then some 47
  else if e = 98 then some 8
  else if e = 116 then some 9
  else if e = 110 then some 10
  else if e = 102 then some 12
  else if e = 114 then some 13
  else none

/-- Reader for the remainder of a unicode escape, positioned after the
backslash and the letter u: reads four hex digits, and when they encode a
high surrogate immediately followed by a second unicode escape encoding a
low surrogate, recombines the pair.  Returns the decoded code point and the
unread remainder. -/
def unescU : List Nat → Option (Nat × List Nat)
  | h1 :: h2 :: h3 :: h4 :: rest =>
    match hexQuad h1 h2 h3 h4 with
    | none => none
    | some code =>
      if 55296 ≤ code ∧ code < 56320 then
        match rest with
        | b2 :: u2 :: k1 :: k2 :: k3 :: k4 :: rest2 =>
          if b2 = 92 ∧ u2 = 117 then
            match hexQuad k1 k2 k3 k4 with
            | some code2 =>
              if 56320 ≤ code2 ∧ code2 < 57344 then
                some (65536 + 1024 * (code - 55296) + (code2 - 56320), rest2)
              else some (code, b2 :: u2 :: k1 :: k2 :: k3 :: k4 :: rest2)
            | none => some (code, b2 :: u2 :: k1 :: k2 :: k3 :: k4 :: rest2)
          else some (code, b2 :: u2 :: k1 :: k2 :: k3 :: k4 :: rest2)
        | short => some (code, short)
      else some (code, rest)
  | _ => none

/-- Modelled from the spec: the collector parses the framed body back into
field values (the repository contains only the sending side).  This is the
string scanner of json.loads after an opening quote: it decodes characters
and escape sequences up to the closing quote and returns the decoded code
points with the unread remainder. -/
def parseStrAux : List Nat → Option (List Nat × List Nat)
  | [] => none
  | c :: rest =>
    if c = 34 then some ([], rest)
    else if c = 92 then
      match rest with
      | [] => none
      | e :: rest2 =>
        if e = 117 then
          match hu : unescU rest2 with
          | none => none
          | some cr => (parseStrAux cr.2).map (fun p => (cr.1 :: p.1, p.2))
        else
          match escShort e with
          | none => none
          | some d => (parseStrAux rest2).map (fun p => (d :: p.1, p.2))
    else (parseStrAux rest).map (fun p => (c :: p.1, p.2))
termination_by s => s.length
decreasing_by
  all_goals first
    | (simp only [List.length_cons]; omega)
    | omega
    | (unfold unescU at hu
       repeat' split at hu
       all_goals first
         | (simp only [Option.some.injEq] at hu
            subst hu
            simp only [List.length_cons]
            omega)
         | simp at hu)

/-- Longest run of decimal digit code points at the head of the input. -/
def takeDigits : List Nat → List Nat × List Nat
  | [] => ([], [])
  | c :: cs =>
    if 48 ≤ c ∧ c ≤ 57 then
      let p := takeDigits cs
      (c :: p.1, p.2)
    else ([], c :: cs)

/-- Numeric value of a most-significant-first decimal digit code point run. -/
def digitsVal (ds : List Nat) : Nat := ds.foldl (fun a c => 10 * a + (c - 48)) 0

/-- Modelled from the spec: number scanner of the collector-side parse.
Reads the longest digit run and returns its value with the remainder. -/
def parseNum (s : List Nat) : Option (Nat × List Nat) :=
  let p := takeDigits s
  if p.1 = [] then none else some (digitsVal p.1, p.2)

mutual

/-- Modelled from the spec: json.loads on the canonical output grammar of
json.dumps (the repository contains only the sending side of the wire
protocol; the spec requires that parsing the body yields the original field
values).  Fuel bounds the nesting recursion. -/
def parseJson : Nat → List Nat → Option (Json × List Nat)
  | 0, _ => none
  | fuel + 1, s =>
    match s with
    | [] => none
    | c :: cs =>
      if c = 110 then
        match cs with
        | 117 :: 108 :: 108 :: rest => some (.null, rest)
        | _ => none
      else if c = 116 then
        match cs with
        | 114 :: 117 :: 101 :: rest => some (.bool true, rest)
        | _ => none
      else if c = 102 then
        match cs with
        | 97 :: 108 :: 115 :: 101 :: rest => some (.bool false, rest)
        | _ => none
      else if c = 34 then (parseStrAux cs).map (fun p => (.str p.1, p.2))
      else if c = 91 then
        match cs with
        | 93 :: rest => some (.arr [], rest)
        | _ => (parseElems fuel cs).map (fun p => (.arr p.1, p.2))
      else if c = 123 then
        match cs with
        | 125 :: rest => some (.obj [], rest)
        | _ => (parseMembers fuel cs).map (fun p => (.obj p.1, p.2))
      else if 48 ≤ c ∧ c ≤ 57 then (parseNum (c :: cs)).map (fun p => (.num p.1, p.2))
      else none

/-- One or more array elements followed by the closing bracket. -/
def parseElems : Nat → List Nat → Option (List Json × List Nat)
  | 0, _ => none
  | fuel + 1, s =>
    match parseJson fuel s with
    | none => none
    | some (j, r) =>
      match r with
      | 44 :: 32 :: r2 => (parseElems fuel r2).map (fun p => (j :: p.1, p.2))
      | 93 :: r2 => some ([j], r2)
      | _ => none

/-- One or more object members followed by the closing brace. -/
def parseMembers : Nat → List Nat → Option (List (List Nat × Json) × List Nat)
  | 0, _ => none
  | fuel + 1, s =>
    match s with
    | 34 :: s1 =>
      match parseStrAux s1 with
      | none => none
      | some (k, r1) =>
        match r1 with
        | 58 :: 32 :: r2 =>
          match parseJson fuel r2 with
          | none => none
          | some (v, r3) =>
            match r3 with
            | 44 :: 32 :: r4 => (parseMembers fuel r4).map (fun p => ((k, v) :: p.1, p.2))
            | 125 :: r4 => some ([(k, v)], r4)
            | _ => none
        | _ => none
    | _ => none

end

mutual

/-- Structural size of a JSON value, used as parser fuel. -/
def jsize : Json → Nat
  | .null => 1
  | .bool _ => 1
  | .num _ => 1
  | .str _ => 1
  | .arr xs => jsizeE xs + 1
  | .obj ms => jsizeM ms + 1
termination_by structural j => j

/-- Structural size of an element list. -/
def jsizeE : List Json → Nat
  | [] => 1
  | j :: js => jsize j + jsizeE js + 1
termination_by structural xs => xs

/-- Structural size of a member list. -/
def jsizeM : List (List Nat × Json) → Nat
  | [] => 1
  | (_, j) :: ms => jsize j + jsizeM ms + 1
termination_by structural ms => ms

end

/-- A Unicode scalar value: a valid code point that is not a surrogate.
Lists of scalar values are exactly the strings Python can faithfully
serialize and reparse. -/
def Scalar (c : Nat) : Bool := c < 1114112 && !(55296 ≤ c && c < 57344)

mutual

/-- Every string occurring in the value consists of scalar values. -/
def jsonScalar : Json → Bool
  | .null => true
  | .bool _ => true
  | .num _ => true
  | .str s => s.all Scalar
  | .arr xs => jsonScalarE xs
  | .obj ms => jsonScalarM ms
termination_by structural j => j

/-- Scalar-string condition on an element list. -/
def jsonScalarE : List Json → Bool
  | [] => true
  | j :: js => jsonScalar j && jsonScalarE js
termination_by structural xs => xs

/-- Scalar-string condition on a member list, keys included. -/
def jsonScalarM : List (List Nat × Json) → Bool
  | [] => true
  | (k, j) :: ms => k.all Scalar && jsonScalar j && jsonScalarM ms
termination_by structural ms => ms

end

/-- True when the input does not start with a decimal digit code point, the
context in which the greedy number scanner stops exactly after a rendered
number. -/
def noLeadDigit : List Nat → Bool
  | [] => true
  | c :: _ => if 48 ≤ c ∧ c ≤ 57 then false else true

/-- Python len applied to a JSON-modelled value: defined for the sized
aggregates (strings, arrays, dicts), a TypeError for the rest. -/
def pyLen : Json → Option Nat
  | .str s => some s.length
  | .arr xs => some xs.length
  | .obj ms => some ms.length
  | _ => none

/-- Python int.to_bytes with length 2 and byte order big, as called on line
174 of core.py: two big-endian bytes for a value below 65536, an
OverflowError otherwise. -/
def toBytes2BE (n : Nat) : Except PyErr (List Nat) :=
  if n < 65536 then .ok [n / 256, n % 256] else .error .overflowError

/-- The common-packet dictionary built by BaseAgent.pack_infor (lines 167
to 172 of core.py), in Python dict insertion order and with the keys
exactly as written in the source.  The arguments ip and ts model the
results of the gethostbyname lookup and of util.timestamp, opaque strings
supplied by the caller; nodId is the configured node identifier. -/
def packDict (nodId ip ts ty : List Nat) (detail : Json) (count : Nat) :
    List (List Nat × Json) :=
  [(str2cp "type", .str ty), (str2cp "detail", detail),
   (str2cp "count", .num count), (str2cp "ip", .str ip),
   (str2cp "nodId", .str nodId), (str2cp "timeStamp", .str ts)]

/-- Embedding of BaseAgent.pack_infor (lines 165 to 175 of core.py): build
the dictionary, take len of the detail for the count field, serialize with
json.dumps and encode (the dumps output is pure ASCII under ensure_ascii,
so code points and UTF-8 bytes coincide), and prepend the 2-byte big-endian
length of the serialized body.  A non-sized detail raises TypeError at the
len call; a body of 65536 bytes or more raises OverflowError at to_bytes;
nothing in pack_infor catches either. -/
def BaseAgent.pack_infor (nodId ip ts ty : List Nat) (detail : Json) :
    Except PyErr (List Nat) :=
  match pyLen detail with
  | none => .error .typeError
  | some count =>
    let pack := dumps (.obj (packDict nodId ip ts ty detail count))
    match toBytes2BE pack.length with
    | .error e => .error e
    | .ok header => .ok (header ++ pack)

/-- Observable socket actions of the embedded code paths, in program
order: socket creation, connect, stream send, datagram send, close, and
the success and failure log calls. -/
inductive NetEvent where
  | newSock
  | connAttempt
  | sendAttempt (pack : List Nat)
  | sendtoAttempt (pack : List Nat)
  | close
  | logDebug
  | logError
  deriving DecidableEq, Repr

/-- Embedding of ShortTCPMixIn.send_infor (lines 242 to 254 of core.py): a
fresh socket per send; connectOk and sendOk say whether the connect and
send calls succeed or raise a socket error.  Returns the trace of socket
actions and the exception propagated to the caller, if any; the finally
clause closes the socket on every path and the except clause swallows
every socket error. -/
def ShortTCPMixIn.send_infor (connectOk sendOk : Bool) (pack : List Nat) :
    List NetEvent × Option PyErr :=
  if connectOk then
    if sendOk then
      ([.newSock, .connAttempt, .sendAttempt pack, .logDebug, .close], none)
    else ([.newSock, .connAttempt, .sendAttempt pack, .logError, .close], none)
  else ([.newSock, .connAttempt, .logError, .close], none)

/-- Connection state of the persistent strategy: whether self.sock
currently holds a connected socket. -/
structure LongState where
  connected : Bool
  deriving DecidableEq, Repr

/-- Embedding of LongTCPMixIn.connection_init (lines 259 to 270 of
core.py): create a socket and attempt one connect; a socket error is
logged and swallowed, never raised, and no retry is made within the call. -/
def LongTCPMixIn.connection_init (connectOk : Bool) : LongState × List NetEvent :=
  if connectOk then ({ connected := true }, [.newSock, .connAttempt])
  else ({ connected := false }, [.newSock, .connAttempt, .logError])

/-- Embedding of LongTCPMixIn.send_infor (lines 275 to 286 of core.py):
send on the persistent socket; on a socket error, log, close, and run
connection_init exactly once.  sendOk says whether a send on a connected
socket succeeds; a send on an unconnected socket raises a socket error.
connectOk says whether the reconnect attempt inside the call succeeds. -/
def LongTCPMixIn.send_infor (st : LongState) (sendOk connectOk : Bool)
    (pack : List Nat) : LongState × List NetEvent × Option PyErr :=
  if st.connected && sendOk then (st, [.sendAttempt pack, .logDebug], none)
  else
    let r := LongTCPMixIn.connection_init connectOk
    (r.1, [.sendAttempt pack, .logError, .close] ++ r.2, none)

/-- Embedding of UDPMixIn.send_infor (lines 303 to 312 of core.py): assert
that the frame is shorter than 1400 bytes before the sendto call; the
except clause catches only socket errors, so a failed assert raises
AssertionError to the caller with no sendto attempted; on a socket error
the datagram handle is closed and recreated. -/
def UDPMixIn.send_infor (sendOk : Bool) (pack : List Nat) :
    List NetEvent × Option PyErr :=
  if 1400 ≤ pack.length then
    ([], some (.assertionError "UDP pack should not longer than MTU."))
  else if sendOk then ([.sendtoAttempt pack, .logDebug], none)
  else ([.sendtoAttempt pack, .logError, .close, .newSock], none)

/-- Whether the accept trigger currently has a conn attribute: Python sets
self.conn on the first successful accept and never deletes it. -/
structure TriggerState where
  hasConn : Bool
  deriving DecidableEq, Repr

/-- Outcome of the blocking accept call inside AcceptDelayTrigger.wait:
either it raises a socket timeout or another socket error, or it returns a
connection whose recv would yield the given bytes. -/
inductive AcceptOutcome where
  | sockErr
  | accepted (buf : List Nat)
  deriving DecidableEq, Repr

/-- Embedding of AcceptDelayTrigger.wait (lines 55 to 77 of core.py).
After a successful accept the source stores the connection in self.conn
but reads the request with conn.recv, and the bare name conn is not bound
anywhere, so evaluating line 68 raises NameError, which the except clause
for socket errors does not catch; the recv bytes are never reached.  On a
socket timeout or error the handler closes self.conn when that attribute
exists and returns the pair of nones. -/
def AcceptDelayTrigger.wait (st : TriggerState) (out : AcceptOutcome) :
    TriggerState × List NetEvent × Except PyErr (Option (List Nat) × Option Json) :=
  match out with
  | .accepted _ => ({ hasConn := true }, [], .error (.nameError "conn"))
  | .sockErr =>
    if st.hasConn then (st, [.close], .ok (none, none))
    else (st, [], .ok (none, none))

/-- Python str of an exception, as interpolated into failure details. -/
def errStr : PyErr → String
  | .socketError => "socket.error"
  | .nameError n => String.append (String.append "name " n) " is not defined"
  | .attributeError n => String.append "no attribute " n
  | .assertionError m => m
  | .overflowError => "int too big to convert"
  | .typeError => "object has no len"

/-- A response issued through the timer response channel: the success flag
and the optional detail string of AcceptDelayTrigger.response. -/
structure Resp where
  ok : Bool
  detail : Option String
  deriving DecidableEq, Repr

/-- The two timer implementations a BaseAgent can be built with:
SimpleDelayTrigger defines only wait, AcceptDelayTrigger defines wait and
response. -/
inductive TimerKind where
  | simple
  | accept
  deriving DecidableEq, Repr

/-- Outcome of the timer wait call as seen by delayfunc: a returned pair
or a raised exception. -/
inductive WaitRes where
  | ret (cmd : Option String) (detail : Option Json)
  | raise (e : PyErr)

/-- Result of one BaseAgent.delayfunc run: the responses issued through
the timer channel in order, the monitor types enqueued for immediate
execution, and the exception escaping delayfunc, if any. -/
structure DelayOut where
  responses : List Resp
  scheduled : List String
  raised : Option PyErr
  deriving DecidableEq, Repr

/-- Embedding of BaseAgent.delayfunc (lines 182 to 207 of core.py),
parametric in the timer kind, in whether the accept trigger holds a stored
connection, in the configured monitor types, and in the wait outcome.
When wait raises, the handler logs and calls self.timer.response
unconditionally: on a simple timer the attribute lookup raises
AttributeError out of delayfunc, on an accept timer without a stored
connection the response body raises AttributeError on self.conn.  A
returned command equal to the update placeholder takes the pass branch
with no response; a configured type is enqueued via enterabs and answered
with one success response; an unknown command raises AssertionError,
caught and answered with one failure response. -/
def BaseAgent.delayfunc (timer : TimerKind) (hasConn : Bool)
    (monTypes : List String) (w : WaitRes) : DelayOut :=
  match w with
  | .raise e =>
    match timer with
    | .simple =>
      { responses := [], scheduled := [], raised := some (.attributeError "response") }
    | .accept =>
      if hasConn then
        { responses := [{ ok := false, detail := some (errStr e) }],
          scheduled := [], raised := none }
      else
        { responses := [], scheduled := [], raised := some (.attributeError "conn") }
  | .ret none _ => { responses := [], scheduled := [], raised := none }
  | .ret (some cmd) _ =>
    if cmd = "update" then { responses := [], scheduled := [], raised := none }
    else if cmd ∈ monTypes then
      match timer with
      | .simple =>
        { responses := [], scheduled := [cmd],
          raised := some (.attributeError "response") }
      | .accept =>
        if hasConn then
          { responses := [{ ok := true, detail := none }],
            scheduled := [cmd], raised := none }
        else
          { responses := [], scheduled := [cmd],
            raised := some (.attributeError "conn") }
    else
      match timer with
      | .simple =>
        { responses := [], scheduled := [],
          raised := some (.attributeError "response") }
      | .accept =>
        if hasConn then
          { responses := [{ ok := false, detail := some "invalid cmd" }],
            scheduled := [], raised := none }
        else
          { responses := [], scheduled := [],
            raised := some (.attributeError "conn") }

/-- A monitor task definition from the configuration, with the fields
one_task_reg reads. -/
structure Task where
  monType : String
  monTrigger : String
  trigInter : Nat
  execPrio : Nat
  deriving DecidableEq, Repr

/-- A pending scheduler event: absolute due time and priority. -/
structure Event where
  due : Nat
  prio : Nat
  deriving DecidableEq, Repr

/-- Steps of one BaseAgent.one_task_reg run, in program order. -/
inductive RegStep where
  | register (e : Event)
  | runAction
  | actionRaised
  deriving DecidableEq, Repr

/-- Embedding of BaseAgent.one_task_reg (lines 133 to 141 of core.py),
executing at time now.  For an interval task, sched.enter computes the
absolute due time as the current clock value plus the delay, so the next
occurrence is registered at now plus the interval; for any other trigger,
sched.enterabs registers at the util.attime value, modelled by the opaque
parameter attime since util is outside the embedded module.  Registration
is the first statement; the wrapped action (task_wrapper) runs only
afterwards, in the return expression, and actionRaises says whether that
call raises. -/
def BaseAgent.one_task_reg (now attime : Nat) (task : Task)
    (actionRaises : Bool) : List RegStep :=
  let ev := if task.monTrigger = "interval"
    then { due := now + task.trigInter, prio := task.execPrio }
    else { due := attime, prio := task.execPrio }
  .register ev :: .runAction :: (if actionRaises then [.actionRaised] else [])

theorem hexVal_hexDig (d : Nat) (h : d < 16) : hexVal (hexDig d) = some d := by
  unfold hexVal hexDig
  split_ifs <;> simp_all <;> omega

theorem hexQuad_hex4 (n : Nat) (h : n < 65536) :
    hexQuad (hexDig (n / 4096 % 16)) (hexDig (n / 256 % 16))
      (hexDig (n / 16 % 16)) (hexDig (n % 16)) = some n := by
  unfold hexQuad
  rw [hexVal_hexDig _ (by omega), hexVal_hexDig _ (by omega),
    hexVal_hexDig _ (by omega), hexVal_hexDig _ (by omega)]
  dsimp only
  congr 1
  omega

theorem escChar_print (c : Nat) (h32 : 32 ≤ c) (h126 : c ≤ 126)
    (h34 : c ≠ 34) (h92 : c ≠ 92) : escChar c = [c] := by
  unfold escChar
  split_ifs <;> first | rfl | omega

theorem escChar_uni (c : Nat) (hlo : ¬(32 ≤ c ∧ c ≤ 126)) (hbmp : c < 65536)
    (hb : c ≠ 8) (ht : c ≠ 9) (hn : c ≠ 10) (hf : c ≠ 12) (hr : c ≠ 13) :
    escChar c = 92 :: 117 :: hex4 c := by
  unfold escChar
  split_ifs <;> first | rfl | omega

theorem escChar_astral (c : Nat) (h : 65536 ≤ c) :
    escChar c =
      (92 :: 117 :: hex4 (55296 + (c - 65536) / 1024)) ++
        (92 :: 117 :: hex4 (56320 + (c - 65536) % 1024)) := by
  unfold escChar
  split_ifs <;> first | rfl | omega

theorem parseStrAux_quote (t : List Nat) : parseStrAux (34 :: t) = some ([], t) := by
  rw [parseStrAux.eq_def]
  simp

theorem parseStrAux_esc34 (t : List Nat) :
    parseStrAux (92 :: 34 :: t) = (parseStrAux t).map (fun p => (34 :: p.1, p.2)) := by
  rw [parseStrAux.eq_def]
  simp [escShort]

theorem parseStrAux_esc92 (t : List Nat) :
    parseStrAux (92 :: 92 :: t) = (parseStrAux t).map (fun p => (92 :: p.1, p.2)) := by
  rw [parseStrAux.eq_def]
  simp [escShort]

theorem parseStrAux_esc98 (t : List Nat) :
    parseStrAux (92 :: 98 :: t) = (parseStrAux t).map (fun p => (8 :: p.1, p.2)) := by
  rw [parseStrAux.eq_def]
  simp [escShort]

theorem parseStrAux_esc116 (t : List Nat) :
    parseStrAux (92 :: 116 :: t) = (parseStrAux t).map (fun p => (9 :: p.1, p.2)) := by
  rw [parseStrAux.eq_def]
  simp [escShort]

theorem parseStrAux_esc110 (t : List Nat) :
    parseStrAux (92 :: 110 :: t) = (parseStrAux t).map (fun p => (10 :: p.1, p.2)) := by
  rw [parseStrAux.eq_def]
  simp [escShort]

theorem parseStrAux_esc102 (t : List Nat) :
    parseStrAux (92 :: 102 :: t) = (parseStrAux t).map (fun p => (12 :: p.1, p.2)) := by
  rw [parseStrAux.eq_def]
  simp [escShort]

theorem parseStrAux_esc114 (t : List Nat) :
    parseStrAux (92 :: 114 :: t) = (parseStrAux t).map (fun p => (13 :: p.1, p.2)) := by
  rw [parseStrAux.eq_def]
  simp [escShort]

theorem parseStrAux_print (c : Nat) (t : List Nat) (h34 : c ≠ 34) (h92 : c ≠ 92) :
    parseStrAux (c :: t) = (parseStrAux t).map (fun p => (c :: p.1, p.2)) := by
  rw [parseStrAux.eq_def]
  simp [h34, h92]

theorem unescU_hex4 (c : Nat) (t : List Nat) (hc : c < 65536)
    (hns : ¬(55296 ≤ c ∧ c < 56320)) : unescU (hex4 c ++ t) = some (c, t) := by
  simp only [hex4, List.cons_append, List.nil_append]
  rw [unescU]
  rw [hexQuad_hex4 c hc]
  dsimp only
  rw [if_neg hns]

theorem unescU_astral (c : Nat) (t : List Nat) (h1 : 65536 ≤ c) (h2 : c < 1114112) :
    unescU (hex4 (55296 + (c - 65536) / 1024) ++
      (92 :: 117 :: (hex4 (56320 + (c - 65536) % 1024) ++ t))) = some (c, t) := by
  simp only [hex4, List.cons_append, List.nil_append]
  rw [unescU]
  rw [hexQuad_hex4 _ (by omega)]
  dsimp only
  rw [if_pos (by omega)]
  rw [if_pos (by omega)]
  rw [hexQuad_hex4 _ (by omega)]
  dsimp only
  rw [if_pos (by omega)]
  simp only [Option.some.injEq, Prod.mk.injEq]
  exact ⟨by omega, trivial⟩

theorem parseStrAux_u (s : List Nat) (c : Nat) (t : List Nat)
    (h : unescU s = some (c, t)) :
    parseStrAux (92 :: 117 :: s) = (parseStrAux t).map (fun p => (c :: p.1, p.2)) := by
  rw [parseStrAux.eq_def]
  norm_num
  split
  · rename_i hu
    rw [h] at hu
    simp at hu
  · rename_i cr hu
    rw [h] at hu
    injection hu with h2
    subst h2
    rfl

theorem parseStrAux_uni (c : Nat) (t : List Nat) (hc : c < 65536)
    (hns : ¬(55296 ≤ c ∧ c < 56320)) :
    parseStrAux (92 :: 117 :: (hex4 c ++ t)) =
      (parseStrAux t).map (fun p => (c :: p.1, p.2)) :=
  parseStrAux_u _ c t (unescU_hex4 c t hc hns)

theorem parseStrAux_astral (c : Nat) (t : List Nat) (h1 : 65536 ≤ c) (h2 : c < 1114112) :
    parseStrAux (92 :: 117 :: (hex4 (55296 + (c - 65536) / 1024) ++
      (92 :: 117 :: (hex4 (56320 + (c - 65536) % 1024) ++ t)))) =
      (parseStrAux t).map (fun p => (c :: p.1, p.2)) :=
  parseStrAux_u _ c t (unescU_astral c t h1 h2)

theorem parseStrAux_escape (s rest : List Nat) (hs : s.all Scalar = true) :
    parseStrAux (s.flatMap escChar ++ 34 :: rest) = some (s, rest) := by
  induction s with
  | nil => simpa using parseStrAux_quote rest
  | cons c cs ih =>
    simp only [List.all_cons, Bool.and_eq_true] at hs
    obtain ⟨hc, hcs⟩ := hs
    have hsc : c < 1114112 ∧ ¬(55296 ≤ c ∧ c < 57344) := by
      simp [Scalar] at hc
      omega
    have ih' := ih hcs
    simp only [List.flatMap_cons, List.append_assoc]
    by_cases h34 : c = 34
    · subst h34
      rw [show escChar 34 = [92, 34] from rfl]
      simp only [List.cons_append, List.nil_append]
      rw [parseStrAux_esc34, ih']
      rfl
    by_cases h92 : c = 92
    · subst h92
      rw [show escChar 92 = [92, 92] from rfl]
      simp only [List.cons_append, List.nil_append]
      rw [parseStrAux_esc92, ih']
      rfl
    by_cases h8 : c = 8
    · subst h8
      rw [show escChar 8 = [92, 98] from rfl]
      simp only [List.cons_append, List.nil_append]
      rw [parseStrAux_esc98, ih']
      rfl
    by_cases h9 : c = 9
    · subst h9
      rw [show escChar 9 = [92, 116] from rfl]
      simp only [List.cons_append, List.nil_append]
      rw [parseStrAux_esc116, ih']
      rfl
    by_cases h10 : c = 10
    · subst h10
      rw [show escChar 10 = [92, 110] from rfl]
      simp only [List.cons_append, List.nil_append]
      rw [parseStrAux_esc110, ih']
      rfl
    by_cases h12 : c = 12
    · subst h12
      rw [show escChar 12 = [92, 102] from rfl]
      simp only [List.cons_append, List.nil_append]
      rw [parseStrAux_esc102, ih']
      rfl
    by_cases h13 : c = 13
    · subst h13
      rw [show escChar 13 = [92, 114] from rfl]
      simp only [List.cons_append, List.nil_append]
      rw [parseStrAux_esc114, ih']
      rfl
    by_cases hpr : 32 ≤ c ∧ c ≤ 126
    · rw [escChar_print c hpr.1 hpr.2 h34 h92]
      simp only [List.cons_append, List.nil_append]
      rw [parseStrAux_print c _ h34 h92, ih']
      rfl
    by_cases hbmp : c < 65536
    · rw [escChar_uni c hpr hbmp h8 h9 h10 h12 h13]
      simp only [List.cons_append]
      rw [parseStrAux_uni c _ hbmp (by omega), ih']
      rfl
    · rw [escChar_astral c (by omega)]
      simp only [List.cons_append, List.append_assoc, List.nil_append]
      rw [parseStrAux_astral c _ (by omega) hsc.1, ih']
      rfl

theorem digitsVal_aux (L : List Nat) (a : Nat) :
    List.foldl (fun acc c => 10 * acc + (c - 48)) a ((L.map (· + 48)).reverse) =
      a * 10 ^ L.length + Nat.ofDigits 10 L := by
  induction L generalizing a with
  | nil => simp
  | cons d L ih =>
    simp only [List.map_cons, List.reverse_cons, List.foldl_append, List.foldl_cons,
      List.foldl_nil, List.length_cons]
    rw [ih]
    simp only [Nat.ofDigits_cons, Nat.add_sub_cancel]
    ring

theorem dumpsNumAux_digits (fuel n : Nat) (h : n ≤ fuel) :
    dumpsNumAux fuel n = (Nat.digits 10 n).map (· + 48) := by
  induction fuel generalizing n with
  | zero =>
    have h0 : n = 0 := by omega
    subst h0
    simp [dumpsNumAux]
  | succ f ihf =>
    by_cases h0 : n = 0
    · subst h0
      simp [dumpsNumAux]
    · have hdiv : n / 10 ≤ f := by
        have := Nat.div_lt_self (Nat.pos_of_ne_zero h0) (by norm_num : 1 < 10)
        omega
      simp only [dumpsNumAux]
      rw [if_neg h0, ihf (n / 10) hdiv,
        Nat.digits_def' (by norm_num : 1 < 10) (Nat.pos_of_ne_zero h0)]
      simp

theorem dumpsNum_eq_digits (n : Nat) :
    dumpsNum n = if n = 0 then [48] else ((Nat.digits 10 n).map (· + 48)).reverse := by
  unfold dumpsNum
  rw [dumpsNumAux_digits n n le_rfl]

theorem digitsVal_dumpsNum (n : Nat) : digitsVal (dumpsNum n) = n := by
  rw [dumpsNum_eq_digits]
  unfold digitsVal
  by_cases h : n = 0
  · subst h
    simp
  · rw [if_neg h, digitsVal_aux]
    simp [Nat.ofDigits_digits]

theorem dumpsNum_digits (n : Nat) : ∀ c ∈ dumpsNum n, 48 ≤ c ∧ c ≤ 57 := by
  intro c hc
  rw [dumpsNum_eq_digits] at hc
  by_cases h : n = 0
  · subst h
    simp at hc
    omega
  · rw [if_neg h] at hc
    rw [List.mem_reverse, List.mem_map] at hc
    obtain ⟨d, hd, rfl⟩ := hc
    have := Nat.digits_lt_base (by norm_num) hd
    omega

theorem dumpsNum_ne_nil (n : Nat) : dumpsNum n ≠ [] := by
  rw [dumpsNum_eq_digits]
  by_cases h : n = 0
  · simp [h]
  · rw [if_neg h]
    simp [Nat.digits_ne_nil_iff_ne_zero, h]

theorem takeDigits_append (ds rest : List Nat) (hds : ∀ c ∈ ds, 48 ≤ c ∧ c ≤ 57)
    (hrest : noLeadDigit rest = true) : takeDigits (ds ++ rest) = (ds, rest) := by
  induction ds with
  | nil =>
    simp only [List.nil_append]
    cases rest with
    | nil => rfl
    | cons c cs =>
      simp only [noLeadDigit] at hrest
      simp only [takeDigits]
      have hnc : ¬(48 ≤ c ∧ c ≤ 57) := by
        by_contra hcon
        rw [if_pos hcon] at hrest
        exact absurd hrest (by simp)
      rw [if_neg hnc]
  | cons d ds ih =>
    have hd := hds d (by simp)
    simp only [List.cons_append, takeDigits]
    rw [if_pos hd]
    simp only [List.append_eq]
    rw [ih (fun c hc => hds c (by simp [hc]))]

theorem parseNum_dumpsNum (n : Nat) (rest : List Nat)
    (hrest : noLeadDigit rest = true) :
    parseNum (dumpsNum n ++ rest) = some (n, rest) := by
  unfold parseNum
  rw [takeDigits_append _ _ (dumpsNum_digits n) hrest]
  simp [dumpsNum_ne_nil n, digitsVal_dumpsNum n]

theorem jsize_pos (j : Json) : 1 ≤ jsize j := by
  cases j <;> simp [jsize]

theorem jsizeE_pos (xs : List Json) : 1 ≤ jsizeE xs := by
  cases xs with
  | nil => simp [jsizeE]
  | cons x xs =>
    have := jsize_pos x
    simp only [jsizeE]
    omega

theorem jsizeM_pos (ms : List (List Nat × Json)) : 1 ≤ jsizeM ms := by
  cases ms with
  | nil => simp [jsizeM]
  | cons m ms =>
    obtain ⟨k, v⟩ := m
    have := jsize_pos v
    simp only [jsizeM]
    omega

theorem dumps_head (j : Json) :
    ∃ c cs, dumps j = c :: cs ∧
      (c = 110 ∨ c = 116 ∨ c = 102 ∨ c = 34 ∨ c = 91 ∨ c = 123 ∨
        (48 ≤ c ∧ c ≤ 57)) := by
  cases j with
  | null => exact ⟨110, _, rfl, by omega⟩
  | bool b =>
    cases b with
    | true => exact ⟨116, _, rfl, by omega⟩
    | false => exact ⟨102, _, rfl, by omega⟩
  | num n =>
    obtain ⟨d, ds, hd⟩ := List.exists_cons_of_ne_nil (dumpsNum_ne_nil n)
    have hdig : 48 ≤ d ∧ d ≤ 57 := dumpsNum_digits n d (by rw [hd]; simp)
    exact ⟨d, ds, hd, by omega⟩
  | str s => exact ⟨34, _, rfl, by omega⟩
  | arr xs => exact ⟨91, _, rfl, by omega⟩
  | obj ms => exact ⟨123, _, rfl, by omega⟩

theorem dumpsElems_cons (x : Json) (xs : List Json) :
    ∃ t, dumpsElems (x :: xs) = dumps x ++ t := by
  cases xs with
  | nil => exact ⟨[], by simp [dumpsElems]⟩
  | cons y ys => exact ⟨_, rfl⟩

theorem parse_dumps_main (N : Nat) :
    (∀ j fuel rest, jsize j ≤ N → jsonScalar j = true → jsize j ≤ fuel →
      noLeadDigit rest = true → parseJson fuel (dumps j ++ rest) = some (j, rest)) ∧
    (∀ xs fuel rest, jsizeE xs ≤ N → xs ≠ [] → jsonScalarE xs = true →
      jsizeE xs ≤ fuel →
      parseElems fuel (dumpsElems xs ++ 93 :: rest) = some (xs, rest)) ∧
    (∀ ms fuel rest, jsizeM ms ≤ N → ms ≠ [] → jsonScalarM ms = true →
      jsizeM ms ≤ fuel →
      parseMembers fuel (dumpsMembers ms ++ 125 :: rest) = some (ms, rest)) := by
  induction N using Nat.strong_induction_on with
  | _ N ih =>
  refine ⟨?_, ?_, ?_⟩
  · intro j fuel rest hN hj hfuel hrest
    have hpos := jsize_pos j
    obtain ⟨f, rfl⟩ : ∃ f, fuel = f + 1 := by
      cases fuel
      · omega
      · exact ⟨_, rfl⟩
    have hNpos : 1 ≤ N := le_trans hpos hN
    cases j with
    | null => simp [dumps, parseJson]
    | bool b => cases b <;> simp [dumps, parseJson]
    | num n =>
      obtain ⟨d, ds, hd⟩ := List.exists_cons_of_ne_nil (dumpsNum_ne_nil n)
      have hdig : 48 ≤ d ∧ d ≤ 57 := dumpsNum_digits n d (by rw [hd]; simp)
      rw [show dumps (.num n) = dumpsNum n from rfl, hd]
      simp only [List.cons_append, parseJson]
      rw [if_neg (by omega), if_neg (by omega), if_neg (by omega), if_neg (by omega),
        if_neg (by omega), if_neg (by omega), if_pos hdig]
      rw [← List.cons_append, ← hd, parseNum_dumpsNum n rest hrest]
      rfl
    | str s =>
      have hs : s.all Scalar = true := by simpa [jsonScalar] using hj
      rw [show dumps (.str s) = 34 :: (s.flatMap escChar ++ [34]) from rfl]
      simp only [List.cons_append, List.append_assoc, List.singleton_append, parseJson]
      norm_num
      rw [parseStrAux_escape s rest hs]
    | arr xs =>
      cases xs with
      | nil => simp [dumps, dumpsElems, parseJson]
      | cons x xs =>
        rw [show dumps (.arr (x :: xs)) = 91 :: (dumpsElems (x :: xs) ++ [93]) from rfl]
        simp only [List.cons_append, List.append_assoc, List.singleton_append, parseJson]
        norm_num
        obtain ⟨t, ht⟩ := dumpsElems_cons x xs
        obtain ⟨c0, cs0, hx, hok⟩ := dumps_head x
        split
        · rename_i rest2 heq
          rw [ht, hx] at heq
          simp only [List.cons_append] at heq
          injection heq with h1 h2
          omega
        · have hb : jsizeE (x :: xs) ≤ N - 1 := by
            simp only [jsize] at hN
            omega
          have hf : jsizeE (x :: xs) ≤ f := by
            simp only [jsize] at hfuel
            omega
          have hsc : jsonScalarE (x :: xs) = true := by simpa [jsonScalar] using hj
          rw [(ih (N - 1) (by omega)).2.1 (x :: xs) f rest hb (by simp) hsc hf]
          rfl
    | obj ms =>
      cases ms with
      | nil => simp [dumps, dumpsMembers, parseJson]
      | cons m ms =>
        obtain ⟨k, v⟩ := m
        rw [show dumps (.obj ((k, v) :: ms)) =
          123 :: (dumpsMembers ((k, v) :: ms) ++ [125]) from rfl]
        simp only [List.cons_append, List.append_assoc, List.singleton_append, parseJson]
        norm_num
        have hkstart : ∃ t2, dumpsMembers ((k, v) :: ms) = 34 :: t2 := by
          cases ms with
          | nil => exact ⟨_, rfl⟩
          | cons m2 ms2 => exact ⟨_, rfl⟩
        obtain ⟨t2, ht2⟩ := hkstart
        split
        · rename_i rest2 heq
          rw [ht2] at heq
          simp only [List.cons_append] at heq
          injection heq with h1 h2
          omega
        · have hb : jsizeM ((k, v) :: ms) ≤ N - 1 := by
            simp only [jsize] at hN
            omega
          have hf : jsizeM ((k, v) :: ms) ≤ f := by
            simp only [jsize] at hfuel
            omega
          have hsc : jsonScalarM ((k, v) :: ms) = true := by simpa [jsonScalar] using hj
          rw [(ih (N - 1) (by omega)).2.2 ((k, v) :: ms) f rest hb (by simp) hsc hf]
          rfl
  · intro xs fuel rest hN hne hsc hfuel
    cases xs with
    | nil => exact absurd rfl hne
    | cons x xs =>
      have hposx := jsize_pos x
      have hposE := jsizeE_pos xs
      simp only [jsizeE] at hN hfuel
      obtain ⟨f, rfl⟩ : ∃ f, fuel = f + 1 := by
        cases fuel
        · omega
        · exact ⟨_, rfl⟩
      simp only [jsonScalarE, Bool.and_eq_true] at hsc
      obtain ⟨hsx, hsxs⟩ := hsc
      cases xs with
      | nil =>
        rw [show dumpsElems [x] = dumps x ++ [] from rfl, List.append_nil]
        simp only [parseElems]
        rw [(ih (N - 1) (by omega)).1 x f (93 :: rest) (by omega) hsx (by omega)
          (by norm_num [noLeadDigit])]
      | cons y ys =>
        rw [show dumpsElems (x :: y :: ys) =
          dumps x ++ 44 :: 32 :: dumpsElems (y :: ys) from rfl]
        simp only [List.append_assoc, List.cons_append, parseElems]
        have hposyys := jsizeE_pos (y :: ys)
        rw [(ih (N - 1) (by omega)).1 x f
          (44 :: 32 :: (dumpsElems (y :: ys) ++ 93 :: rest)) (by omega) hsx (by omega)
          (by norm_num [noLeadDigit])]
        simp only []
        rw [(ih (N - 1) (by omega)).2.1 (y :: ys) f rest (by omega) (by simp) hsxs
          (by omega)]
        rfl
  · intro ms fuel rest hN hne hsc hfuel
    cases ms with
    | nil => exact absurd rfl hne
    | cons m ms =>
      obtain ⟨k, v⟩ := m
      have hposv := jsize_pos v
      have hposM := jsizeM_pos ms
      simp only [jsizeM] at hN hfuel
      obtain ⟨f, rfl⟩ : ∃ f, fuel = f + 1 := by
        cases fuel
        · omega
        · exact ⟨_, rfl⟩
      simp only [jsonScalarM, Bool.and_eq_true] at hsc
      obtain ⟨⟨hsk, hsv⟩, hsms⟩ := hsc
      cases ms with
      | nil =>
        rw [show dumpsMembers [(k, v)] =
          dumpsStr k ++ 58 :: 32 :: (dumps v ++ []) from rfl, List.append_nil]
        rw [show dumpsStr k = 34 :: (k.flatMap escChar ++ [34]) from rfl]
        simp only [List.cons_append, List.append_assoc, List.singleton_append,
          parseMembers]
        rw [parseStrAux_escape k _ hsk]
        simp only [List.nil_append]
        rw [(ih (N - 1) (by omega)).1 v f (125 :: rest) (by omega) hsv (by omega)
          (by norm_num [noLeadDigit])]
      | cons m2 ms2 =>
        obtain ⟨k2, v2⟩ := m2
        rw [show dumpsMembers ((k, v) :: (k2, v2) :: ms2) =
          dumpsStr k ++ 58 :: 32 :: (dumps v ++ 44 :: 32 ::
            dumpsMembers ((k2, v2) :: ms2)) from rfl]
        rw [show dumpsStr k = 34 :: (k.flatMap escChar ++ [34]) from rfl]
        simp only [List.cons_append, List.append_assoc, List.singleton_append,
          parseMembers]
        rw [parseStrAux_escape k _ hsk]
        simp only [List.nil_append]
        have hposM2 := jsizeM_pos ((k2, v2) :: ms2)
        rw [(ih (N - 1) (by omega)).1 v f
          (44 :: 32 :: (dumpsMembers ((k2, v2) :: ms2) ++ 125 :: rest)) (by omega) hsv
          (by omega) (by norm_num [noLeadDigit])]
        simp only []
        rw [(ih (N - 1) (by omega)).2.2 ((k2, v2) :: ms2) f rest (by omega) (by simp)
          hsms (by omega)]
        rfl

theorem parseJson_dumps (j : Json) (fuel : Nat) (rest : List Nat)
    (hj : jsonScalar j = true) (hfuel : jsize j ≤ fuel)
    (hrest : noLeadDigit rest = true) :
    parseJson fuel (dumps j ++ rest) = some (j, rest) :=
  (parse_dumps_main (jsize j)).1 j fuel rest le_rfl hj hfuel hrest

theorem packDict_scalar (nodId ip ts ty : List Nat) (detail : Json) (count : Nat)
    (h1 : nodId.all Scalar = true) (h2 : ip.all Scalar = true)
    (h3 : ts.all Scalar = true) (h4 : ty.all Scalar = true)
    (h5 : jsonScalar detail = true) :
    jsonScalar (Json.obj (packDict nodId ip ts ty detail count)) = true := by
  simp [jsonScalar, packDict, jsonScalarM, Bool.and_eq_true, h1, h2, h3, h4, h5]
  try decide

theorem flatMap_escChar_replicate (n c : Nat) (hc : escChar c = [c]) :
    ((List.replicate n c).flatMap escChar).length = n := by
  induction n with
  | zero => simp
  | succ m ih =>
    simp only [List.replicate_succ, List.flatMap_cons, hc, List.length_append, ih,
      List.length_cons, List.length_nil]
    omega

theorem dumps_str_length (s : List Nat) :
    (dumps (Json.str s)).length = (s.flatMap escChar).length + 2 := by
  rw [show dumps (Json.str s) = 34 :: (s.flatMap escChar ++ [34]) from rfl]
  simp only [List.length_cons, List.length_append, List.length_singleton,
    List.length_nil]

theorem dumps_obj_length (ms : List (List Nat × Json)) :
    (dumps (Json.obj ms)).length = (dumpsMembers ms).length + 2 := by
  rw [show dumps (Json.obj ms) = 123 :: (dumpsMembers ms ++ [125]) from rfl]
  simp only [List.length_cons, List.length_append, List.length_singleton,
    List.length_nil]

theorem le_dumpsMembers_of_mem (ms : List (List Nat × Json)) (k : List Nat)
    (v : Json) (h : (k, v) ∈ ms) :
    (dumps v).length ≤ (dumpsMembers ms).length := by
  induction ms with
  | nil => simp at h
  | cons m tail ih =>
    obtain ⟨k2, v2⟩ := m
    rw [show dumpsMembers ((k2, v2) :: tail) = dumpsStr k2 ++ 58 :: 32 ::
      (dumps v2 ++ (if tail.isEmpty then [] else 44 :: 32 :: dumpsMembers tail))
      from rfl]
    simp only [List.length_append, List.length_cons]
    rcases List.mem_cons.mp h with heq | hmem
    · cases heq
      omega
    · have hle := ih hmem
      cases tail with
      | nil => simp at hmem
      | cons t ts =>
        simp only [List.isEmpty_cons, Bool.false_eq_true, if_false,
          List.length_cons]
        omega

theorem hexDig_lt (x : Nat) (h : x < 16) : hexDig x < 128 := by
  unfold hexDig
  split_ifs <;> omega

theorem hex4_ascii (n : Nat) : ∀ d ∈ hex4 n, d < 128 := by
  intro d hd
  simp only [hex4, List.mem_cons, List.not_mem_nil, or_false] at hd
  rcases hd with h | h | h | h <;>
    exact h ▸ hexDig_lt _ (by omega)

theorem escChar_ascii (c : Nat) : ∀ d ∈ escChar c, d < 128 := by
  intro d hd
  unfold escChar at hd
  split_ifs at hd with h1 h2 h3 h4 h5 h6 h7 h8 h9
  · simp at hd; omega
  · simp at hd; omega
  · simp at hd; omega
  · simp at hd; omega
  · simp at hd; omega
  · simp at hd; omega
  · simp at hd; omega
  · simp at hd; omega
  · simp only [List.mem_cons] at hd
    rcases hd with h | h | h
    · omega
    · omega
    · exact hex4_ascii c d h
  · simp only [List.cons_append, List.mem_cons, List.mem_append] at hd
    rcases hd with h | h | h
    · omega
    · omega
    · rcases h with h | h | h | h
      · exact hex4_ascii _ d h
      · omega
      · omega
      · exact hex4_ascii _ d h

theorem dumpsNum_ascii (n : Nat) : ∀ d ∈ dumpsNum n, d < 128 := by
  intro d hd
  have := dumpsNum_digits n d hd
  omega

theorem dumpsStr_ascii (s : List Nat) : ∀ d ∈ dumpsStr s, d < 128 := by
  intro d hd
  simp only [dumpsStr, List.mem_cons, List.mem_append, List.mem_flatMap,
    List.not_mem_nil, or_false, List.mem_singleton] at hd
  rcases hd with h | ⟨a, _, h⟩ | h
  · omega
  · exact escChar_ascii a d h
  · omega

theorem dumps_ascii_main (N : Nat) :
    (∀ j, jsize j ≤ N → ∀ d ∈ dumps j, d < 128) ∧
    (∀ xs, jsizeE xs ≤ N → ∀ d ∈ dumpsElems xs, d < 128) ∧
    (∀ ms, jsizeM ms ≤ N → ∀ d ∈ dumpsMembers ms, d < 128) := by
  induction N using Nat.strong_induction_on with
  | _ N ih =>
  refine ⟨?_, ?_, ?_⟩
  · intro j hN d hd
    have hpos := jsize_pos j
    have hNpos : 1 ≤ N := le_trans hpos hN
    cases j with
    | null => simp [dumps] at hd; omega
    | bool b => cases b <;> simp [dumps] at hd <;> omega
    | num n => exact dumpsNum_ascii n d hd
    | str s => exact dumpsStr_ascii s d hd
    | arr xs =>
      rw [show dumps (.arr xs) = 91 :: (dumpsElems xs ++ [93]) from rfl] at hd
      simp only [List.mem_cons, List.mem_append, List.mem_singleton,
        List.not_mem_nil, or_false] at hd
      rcases hd with h | h | h
      · omega
      · exact (ih (N - 1) (by omega)).2.1 xs (by simp only [jsize] at hN; omega) d h
      · omega
    | obj ms =>
      rw [show dumps (.obj ms) = 123 :: (dumpsMembers ms ++ [125]) from rfl] at hd
      simp only [List.mem_cons, List.mem_append, List.mem_singleton,
        List.not_mem_nil, or_false] at hd
      rcases hd with h | h | h
      · omega
      · exact (ih (N - 1) (by omega)).2.2 ms (by simp only [jsize] at hN; omega) d h
      · omega
  · intro xs hN d hd
    cases xs with
    | nil => simp [dumpsElems] at hd
    | cons x xs =>
      have hposx := jsize_pos x
      have hposE := jsizeE_pos xs
      simp only [jsizeE] at hN
      have hNpos : 1 ≤ N := by omega
      rw [show dumpsElems (x :: xs) =
        dumps x ++ (if xs.isEmpty then [] else 44 :: 32 :: dumpsElems xs) from rfl]
        at hd
      simp only [List.mem_append] at hd
      rcases hd with h | h
      · exact (ih (N - 1) (by omega)).1 x (by omega) d h
      · cases xs with
        | nil => simp at h
        | cons y ys =>
          simp only [List.isEmpty_cons, Bool.false_eq_true, if_false,
            List.mem_cons] at h
          rcases h with h | h | h
          · omega
          · omega
          · exact (ih (N - 1) (by omega)).2.1 (y :: ys) (by omega) d h
  · intro ms hN d hd
    cases ms with
    | nil => simp [dumpsMembers] at hd
    | cons m ms =>
      obtain ⟨k, v⟩ := m
      have hposv := jsize_pos v
      have hposM := jsizeM_pos ms
      simp only [jsizeM] at hN
      have hNpos : 1 ≤ N := by omega
      rw [show dumpsMembers ((k, v) :: ms) = dumpsStr k ++ 58 :: 32 ::
        (dumps v ++ (if ms.isEmpty then [] else 44 :: 32 :: dumpsMembers ms))
        from rfl] at hd
      simp only [List.mem_append, List.mem_cons] at hd
      rcases hd with h | h | h | h
      · exact dumpsStr_ascii k d h
      · omega
      · omega
      · rcases h with h | h
        · exact (ih (N - 1) (by omega)).1 v (by omega) d h
        · cases ms with
          | nil => simp at h
          | cons m2 ms2 =>
            simp only [List.isEmpty_cons, Bool.false_eq_true, if_false,
              List.mem_cons] at h
            rcases h with h | h | h
            · omega
            · omega
            · exact (ih (N - 1) (by omega)).2.2 (m2 :: ms2) (by omega) d h

/-- The serializer output is pure ASCII (ensure_ascii), so the UTF-8 byte
string produced by encode has exactly one byte per code point and the byte
length of the wire body equals the length of the code point list used in
the embedding. -/
theorem dumps_ascii (j : Json) : ∀ d ∈ dumps j, d < 128 :=
  (dumps_ascii_main (jsize j)).1 j le_rfl

/-- C1: the claim says a received structured request makes wait return the
parsed (cmd, detail).  In the source, line 68 reads conn.recv where only
self.conn was assigned, and the bare name conn is unbound, so every
successful accept raises NameError out of wait instead of returning the
command — contradicting the docstring of wait itself.  The timeout and
socket error path does return the pair of nones after closing any stored
connection.  This theorem evaluates the embedded wait at the failing input:
an inbound connection carrying a well-formed request. -/
theorem C1_wait_raises_namerror :
    (AcceptDelayTrigger.wait { hasConn := false }
        (.accepted (str2cp "\x7b\"cmd\": \"reboot\"\x7d"))).2.2 =
      .error (.nameError "conn") ∧
    (AcceptDelayTrigger.wait { hasConn := false }
        (.accepted (str2cp "\x7b\"cmd\": \"reboot\"\x7d"))).1.hasConn = true ∧
    (AcceptDelayTrigger.wait { hasConn := false } .sockErr).2.2 = .ok (none, none) :=
  ⟨rfl, rfl, rfl⟩

/-- C2 counterexample: a 1400-byte frame sent through the datagram strategy
raises AssertionError out of send_infor with an empty action trace — the
oversized-packet failure reaches the caller instead of being handled inside
send_infor, refuting the claim that send_infor never raises for every
strategy and every packet. -/
theorem C2_counterexample :
    (UDPMixIn.send_infor true (List.replicate 1400 0)).2 =
      some (.assertionError "UDP pack should not longer than MTU.") := by
  unfold UDPMixIn.send_infor
  rw [if_pos (by norm_num [List.length_replicate])]

/-- C2 (amended): send_infor never raises for the one-shot and persistent
strategies, on any packet and any socket outcome, and never raises for the
datagram strategy on packets shorter than 1400 bytes; the only failure that
reaches the caller is the AssertionError for an oversized datagram frame. -/
theorem C2_amended (connectOk sendOk sendOk2 connectOk2 : Bool) (st : LongState)
    (pack : List Nat) :
    (ShortTCPMixIn.send_infor connectOk sendOk pack).2 = none ∧
    (LongTCPMixIn.send_infor st sendOk2 connectOk2 pack).2.2 = none ∧
    (pack.length < 1400 → (UDPMixIn.send_infor sendOk pack).2 = none) := by
  refine ⟨?_, ?_, ?_⟩
  · unfold ShortTCPMixIn.send_infor
    split_ifs <;> rfl
  · unfold LongTCPMixIn.send_infor
    split_ifs <;> rfl
  · intro h
    unfold UDPMixIn.send_infor
    rw [if_neg (by omega)]
    split_ifs <;> rfl

/-- Witness for C2 (amended) at concrete inputs. -/
theorem C2_amended_witness :
    (ShortTCPMixIn.send_infor true false [7]).2 = none ∧
    (LongTCPMixIn.send_infor { connected := true } false false [7]).2.2 = none ∧
    (UDPMixIn.send_infor false [7]).2 = none := by
  have h := C2_amended true false false false { connected := true } [7]
  exact ⟨h.1, h.2.1, h.2.2 (by decide)⟩

/-- C3 counterexample: a successfully returned update command produces zero
responses — the dispatch path takes the pass branch and never calls
response — refuting exactly one response for every returned command. -/
theorem C3_counterexample :
    (BaseAgent.delayfunc .accept true ["cpuCheck"]
      (.ret (some "update") none)).responses = [] := rfl

/-- C3 (amended): for every command that wait successfully returns other
than the reserved update placeholder, the dispatch path in delayfunc
produces exactly one response — one success response for a configured type,
one failure response for an unknown one — while the update placeholder
produces zero responses. -/
theorem C3_amended (monTypes : List String) (cmd : String) (detail : Option Json)
    (hc : cmd ≠ "update") :
    (BaseAgent.delayfunc .accept true monTypes
      (.ret (some cmd) detail)).responses.length = 1 ∧
    (BaseAgent.delayfunc .accept true monTypes
      (.ret (some "update") detail)).responses.length = 0 := by
  constructor
  · simp only [BaseAgent.delayfunc]
    rw [if_neg hc]
    split_ifs <;> rfl
  · simp [BaseAgent.delayfunc]

/-- Witness for C3 (amended): a configured command and an unknown command. -/
theorem C3_amended_witness :
    (BaseAgent.delayfunc .accept true ["cpuCheck"]
      (.ret (some "cpuCheck") none)).responses.length = 1 ∧
    (BaseAgent.delayfunc .accept true ["cpuCheck"]
      (.ret (some "update") none)).responses.length = 0 :=
  C3_amended ["cpuCheck"] "cpuCheck" none (by decide)

/-- C4 counterexample: with the SimpleWait timer, a wait failure makes
delayfunc itself raise: the handler calls self.timer.response without
checking that a response channel exists, and SimpleDelayTrigger has no
response attribute, so AttributeError propagates out of delayfunc —
refuting the claim that delayfunc does not raise for every wait
abstraction. -/
theorem C4_counterexample :
    (BaseAgent.delayfunc .simple false [] (.raise .socketError)).raised =
      some (.attributeError "response") := rfl

/-- C4 (amended): when wait raises, delayfunc logs the failure and
unconditionally attempts a failure response.  With ListenWait holding an
accepted connection this issues exactly one failure response carrying the
error detail, schedules nothing and does not raise; with SimpleWait, which
has no response channel, the attribute lookup raises AttributeError out of
delayfunc instead of being skipped. -/
theorem C4_amended (monTypes : List String) (e : PyErr) :
    BaseAgent.delayfunc .accept true monTypes (.raise e) =
      { responses := [{ ok := false, detail := some (errStr e) }], scheduled := [],
        raised := none } ∧
    BaseAgent.delayfunc .simple false monTypes (.raise e) =
      { responses := [], scheduled := [],
        raised := some (.attributeError "response") } :=
  ⟨rfl, rfl⟩

/-- C7: the datagram strategy rejects any frame of 1400 bytes or more
before any network call — the assert raises with an empty action trace, so
no sendto and no partial send ever happens — while every shorter frame is
handed to the datagram send. -/
theorem C7_udp_length_gate (sendOk : Bool) (pack : List Nat) :
    (1400 ≤ pack.length →
      (UDPMixIn.send_infor sendOk pack).1 = [] ∧
      (UDPMixIn.send_infor sendOk pack).2 =
        some (.assertionError "UDP pack should not longer than MTU.")) ∧
    (pack.length < 1400 →
      .sendtoAttempt pack ∈ (UDPMixIn.send_infor sendOk pack).1) := by
  constructor
  · intro h
    unfold UDPMixIn.send_infor
    rw [if_pos h]
    exact ⟨rfl, rfl⟩
  · intro h
    unfold UDPMixIn.send_infor
    rw [if_neg (by omega)]
    split_ifs <;> simp

/-- Witness for C7 at a 1400-byte frame and a short frame. -/
theorem C7_witness :
    ((UDPMixIn.send_infor true (List.replicate 1400 0)).1 = [] ∧
      (UDPMixIn.send_infor true (List.replicate 1400 0)).2 =
        some (.assertionError "UDP pack should not longer than MTU.")) ∧
    .sendtoAttempt [9] ∈ (UDPMixIn.send_infor true [9]).1 :=
  ⟨(C7_udp_length_gate true (List.replicate 1400 0)).1
      (by norm_num [List.length_replicate]),
   (C7_udp_length_gate true [9]).2 (by decide)⟩

/-- C8: when a persistent-connection send fails, send_infor makes exactly
one reconnect attempt (one connect call) within that send; a successful
send makes none; and when the reconnect also fails, no further reconnect
happens in the same call, the connection state stays unusable, and the
next send call repeats the same once-only recovery. -/
theorem C8_long_reconnect_once (st : LongState) (sendOk connectOk sendOk2 connectOk2 : Bool)
    (pack pack2 : List Nat) :
    (¬(st.connected = true ∧ sendOk = true) →
      (LongTCPMixIn.send_infor st sendOk connectOk pack).2.1.count .connAttempt = 1) ∧
    (st.connected = true ∧ sendOk = true →
      (LongTCPMixIn.send_infor st sendOk connectOk pack).2.1.count .connAttempt = 0) ∧
    (connectOk = false → ¬(st.connected = true ∧ sendOk = true) →
      (LongTCPMixIn.send_infor st sendOk connectOk pack).1.connected = false ∧
      (LongTCPMixIn.send_infor (LongTCPMixIn.send_infor st sendOk connectOk pack).1
        sendOk2 connectOk2 pack2).2.1.count .connAttempt = 1) := by
  obtain ⟨c⟩ := st
  refine ⟨?_, ?_, ?_⟩
  · intro h
    unfold LongTCPMixIn.send_infor LongTCPMixIn.connection_init
    cases c <;> cases sendOk <;> cases connectOk <;> simp_all <;> rfl
  · intro h
    unfold LongTCPMixIn.send_infor
    rw [if_pos (by simp only [Bool.and_eq_true]; exact ⟨h.1, h.2⟩)]
    rfl
  · intro hco h
    subst hco
    unfold LongTCPMixIn.send_infor LongTCPMixIn.connection_init
    cases c <;> cases sendOk <;> cases sendOk2 <;> cases connectOk2 <;>
      simp_all <;> rfl

/-- Witness for C8: an induced send failure with a failing reconnect,
followed by a second send. -/
theorem C8_witness :
    (LongTCPMixIn.send_infor { connected := true } false false [3]).2.1.count
      .connAttempt = 1 ∧
    (LongTCPMixIn.send_infor { connected := true } true true [3]).2.1.count
      .connAttempt = 0 ∧
    ((LongTCPMixIn.send_infor { connected := true } false false [3]).1.connected =
      false ∧
    (LongTCPMixIn.send_infor
      (LongTCPMixIn.send_infor { connected := true } false false [3]).1
        true true [4]).2.1.count .connAttempt = 1) := by
  have h1 := C8_long_reconnect_once { connected := true } false false true true [3] [4]
  have h2 := C8_long_reconnect_once { connected := true } true false true true [3] [4]
  exact ⟨h1.1 (by simp), h2.2.1 (by simp), h1.2.2 rfl (by simp)⟩

/-- C9: for an interval task with interval N firing at time now, the next
occurrence is registered with due time exactly now plus N and the task
priority as the first step of one_task_reg, before the wrapped action runs,
and the registration is in the trace whether or not the action raises —
so the re-registration does not depend on how long the action takes and
the task is never lost when the action fails. -/
theorem C9_interval_reregister (now attime : Nat) (task : Task)
    (actionRaises : Bool) (h : task.monTrigger = "interval") :
    BaseAgent.one_task_reg now attime task actionRaises =
      .register { due := now + task.trigInter, prio := task.execPrio } ::
        .runAction :: (if actionRaises then [.actionRaised] else []) ∧
    .register { due := now + task.trigInter, prio := task.execPrio } ∈
      BaseAgent.one_task_reg now attime task actionRaises := by
  unfold BaseAgent.one_task_reg
  rw [if_pos h]
  exact ⟨rfl, by simp⟩

/-- Witness for C9 at a concrete interval task whose action raises. -/
theorem C9_witness :
    BaseAgent.one_task_reg 100 0
      { monType := "cpuCheck", monTrigger := "interval", trigInter := 5,
        execPrio := 1 } true =
      .register { due := 105, prio := 1 } :: .runAction :: [.actionRaised] ∧
    .register { due := 105, prio := 1 } ∈
      BaseAgent.one_task_reg 100 0
        { monType := "cpuCheck", monTrigger := "interval", trigInter := 5,
          execPrio := 1 } true :=
  C9_interval_reregister 100 0
    { monType := "cpuCheck", monTrigger := "interval", trigInter := 5,
      execPrio := 1 } true rfl

/-- C5 (amended): for every packet, the serialized body field list is
exactly type, detail, count, ip, nodId, timeStamp, in this order — the
node identifier field on the wire is named nodId, not nodeId. -/
theorem C5_pack_keys (nodId ip ts ty : List Nat) (detail : Json) (count : Nat) :
    (packDict nodId ip ts ty detail count).map Prod.fst =
      [str2cp "type", str2cp "detail", str2cp "count", str2cp "ip",
        str2cp "nodId", str2cp "timeStamp"] := rfl

/-- C5 counterexample: at a concrete packet, the key list of the
serialized dictionary contains nodId and does not contain nodeId,
refuting the claimed field name. -/
theorem C5_counterexample :
    str2cp "nodId" ∈ (packDict (str2cp "n1") (str2cp "10.0.0.5")
      (str2cp "1460000000") (str2cp "cpuCheck") (Json.arr []) 0).map Prod.fst ∧
    str2cp "nodeId" ∉ (packDict (str2cp "n1") (str2cp "10.0.0.5")
      (str2cp "1460000000") (str2cp "cpuCheck") (Json.arr []) 0).map Prod.fst := by
  decide

/-- C6: encoding a packet, stripping the 2-byte prefix and parsing the
body yields exactly the original field values, and the big-endian prefix
is the exact byte length of the body that follows it.  Stated for every
input on which the encoder succeeds: a sized detail, strings made of
Unicode scalar values, and a body below the 2-byte limit (the limit case
is claim C10). -/
theorem C6_pack_infor_roundtrip (nodId ip ts ty : List Nat) (detail : Json)
    (count : Nat) (hcount : pyLen detail = some count)
    (h1 : nodId.all Scalar = true) (h2 : ip.all Scalar = true)
    (h3 : ts.all Scalar = true) (h4 : ty.all Scalar = true)
    (h5 : jsonScalar detail = true)
    (hlen : (dumps (Json.obj (packDict nodId ip ts ty detail count))).length < 65536) :
    BaseAgent.pack_infor nodId ip ts ty detail =
      .ok (((dumps (Json.obj (packDict nodId ip ts ty detail count))).length / 256) ::
        ((dumps (Json.obj (packDict nodId ip ts ty detail count))).length % 256) ::
        dumps (Json.obj (packDict nodId ip ts ty detail count))) ∧
    parseJson (jsize (Json.obj (packDict nodId ip ts ty detail count)))
      (dumps (Json.obj (packDict nodId ip ts ty detail count))) =
      some (Json.obj (packDict nodId ip ts ty detail count), []) ∧
    256 * ((dumps (Json.obj (packDict nodId ip ts ty detail count))).length / 256) +
      (dumps (Json.obj (packDict nodId ip ts ty detail count))).length % 256 =
      (dumps (Json.obj (packDict nodId ip ts ty detail count))).length := by
  refine ⟨?_, ?_, by omega⟩
  · unfold BaseAgent.pack_infor
    rw [hcount]
    dsimp only
    unfold toBytes2BE
    rw [if_pos hlen]
    rfl
  · have h := parseJson_dumps (Json.obj (packDict nodId ip ts ty detail count))
      (jsize (Json.obj (packDict nodId ip ts ty detail count))) []
      (packDict_scalar nodId ip ts ty detail count h1 h2 h3 h4 h5) le_rfl rfl
    simpa using h

/-- Witness for C6 at a concrete packet with a one-element detail. -/
theorem C6_witness :
    BaseAgent.pack_infor (str2cp "n1") (str2cp "10.0.0.5") (str2cp "1460000000")
        (str2cp "cpuCheck") (Json.arr [Json.str (str2cp "ok")]) =
      .ok (((dumps (Json.obj (packDict (str2cp "n1") (str2cp "10.0.0.5")
          (str2cp "1460000000") (str2cp "cpuCheck")
          (Json.arr [Json.str (str2cp "ok")]) 1))).length / 256) ::
        ((dumps (Json.obj (packDict (str2cp "n1") (str2cp "10.0.0.5")
          (str2cp "1460000000") (str2cp "cpuCheck")
          (Json.arr [Json.str (str2cp "ok")]) 1))).length % 256) ::
        dumps (Json.obj (packDict (str2cp "n1") (str2cp "10.0.0.5")
          (str2cp "1460000000") (str2cp "cpuCheck")
          (Json.arr [Json.str (str2cp "ok")]) 1))) ∧
    parseJson (jsize (Json.obj (packDict (str2cp "n1") (str2cp "10.0.0.5")
        (str2cp "1460000000") (str2cp "cpuCheck")
        (Json.arr [Json.str (str2cp "ok")]) 1)))
      (dumps (Json.obj (packDict (str2cp "n1") (str2cp "10.0.0.5")
        (str2cp "1460000000") (str2cp "cpuCheck")
        (Json.arr [Json.str (str2cp "ok")]) 1))) =
      some (Json.obj (packDict (str2cp "n1") (str2cp "10.0.0.5")
        (str2cp "1460000000") (str2cp "cpuCheck")
        (Json.arr [Json.str (str2cp "ok")]) 1), []) :=
  ⟨(C6_pack_infor_roundtrip (str2cp "n1") (str2cp "10.0.0.5") (str2cp "1460000000")
      (str2cp "cpuCheck") (Json.arr [Json.str (str2cp "ok")]) 1 rfl
      (by decide) (by decide) (by decide) (by decide) (by decide) (by decide)).1,
   (C6_pack_infor_roundtrip (str2cp "n1") (str2cp "10.0.0.5") (str2cp "1460000000")
      (str2cp "cpuCheck") (Json.arr [Json.str (str2cp "ok")]) 1 rfl
      (by decide) (by decide) (by decide) (by decide) (by decide) (by decide)).2.1⟩

/-- C10: when the serialized body exceeds 65535 bytes, pack_infor raises
OverflowError at the to_bytes call building the 2-byte length prefix, so
no frame with such a body is ever produced; nothing in pack_infor catches
the error, so it propagates out of the encoder instead of being logged and
dropped. -/
theorem C10_pack_infor_overflow (nodId ip ts ty : List Nat) (detail : Json)
    (count : Nat) (hcount : pyLen detail = some count)
    (hlen : 65536 ≤ (dumps (Json.obj (packDict nodId ip ts ty detail count))).length) :
    BaseAgent.pack_infor nodId ip ts ty detail = .error .overflowError := by
  unfold BaseAgent.pack_infor
  rw [hcount]
  dsimp only
  unfold toBytes2BE
  rw [if_neg (by omega)]

/-- Witness for C10: a detail of 70000 characters makes the body exceed
the 2-byte length limit and pack_infor fails with OverflowError. -/
theorem C10_witness :
    BaseAgent.pack_infor (str2cp "n1") (str2cp "10.0.0.5") (str2cp "1460000000")
      (str2cp "cpuCheck") (Json.str (List.replicate 70000 97)) =
      .error .overflowError :=
  C10_pack_infor_overflow (str2cp "n1") (str2cp "10.0.0.5") (str2cp "1460000000")
    (str2cp "cpuCheck") (Json.str (List.replicate 70000 97)) 70000
    (by
      rw [show pyLen (Json.str (List.replicate 70000 97)) =
        some (List.replicate 70000 97).length from rfl, List.length_replicate])
    (by
      have hv : (dumps (Json.str (List.replicate 70000 97))).length = 70002 := by
        rw [dumps_str_length, flatMap_escChar_replicate 70000 97 (by decide)]
      have hmem : (str2cp "detail", Json.str (List.replicate 70000 97)) ∈
          packDict (str2cp "n1") (str2cp "10.0.0.5") (str2cp "1460000000")
            (str2cp "cpuCheck") (Json.str (List.replicate 70000 97)) 70000 := by
        unfold packDict
        exact List.mem_cons_of_mem _ (List.mem_cons_self _ _)
      have hle := le_dumpsMembers_of_mem _ _ _ hmem
      have hobj := dumps_obj_length (packDict (str2cp "n1") (str2cp "10.0.0.5")
        (str2cp "1460000000") (str2cp "cpuCheck")
        (Json.str (List.replicate 70000 97)) 70000)
      omega)

end Agent
